import Mathlib

/-
Verification development for the neat-catch library (src/index.ts).

The embedding models JavaScript values by the attributes the library
inspects: nullishness, truthiness, whether `typeof` is object/function,
whether the value carries callable `then`/`catch` members, and whether it
is an instance of the built-in Promise type.  A zero-argument operation is
modelled by its observable behaviour: it either throws synchronously or
returns a value; when the returned value is awaitable, the behaviour of
awaiting it (resolution or rejection) is part of the operation model.
Functions that in JavaScript may throw or reject are given Except-valued
codomains, with the thrown/rejected value in the error position.
-/

/-- Model of a JavaScript runtime value, keeping exactly the attributes
the library inspects.  `prim` covers primitives (strings, numbers,
booleans, ...) with their truthiness; `obj` covers objects and functions,
recording whether `then`/`catch` are callable members and whether the
value is an instance of the built-in Promise type; `errorObj` is an Error
instance with a name and message; `aggregate` is the AggregateError the
library builds when an error transformer itself throws, carrying the
original failure and the transformer failure. -/
inductive Value where
  | vNull
  | vUndefined
  | prim (truthy : Bool) (id : Nat)
  | obj (thenCallable catchCallable promiseInstance : Bool) (id : Nat)
  | errorObj (name message : String)
  | aggregate (original tfail : Value) (message : String)
deriving DecidableEq, Repr

/-- JavaScript truthiness of a modelled value.  null and undefined are
falsy, primitives carry their own truthiness, and every object (including
Error and AggregateError instances) is truthy. -/
def Value.truthy : Value → Bool
  | .vNull => false
  | .vUndefined => false
  | .prim t _ => t
  | .obj _ _ _ _ => true
  | .errorObj _ _ => true
  | .aggregate _ _ _ => true

/-- The awaitable check of src/index.ts lines 24-30:
`result instanceof Promise || (result != null && (typeof result ===
"object" || typeof result === "function") && typeof result.then ===
"function" && typeof result.catch === "function")`.  Only `obj` values
have object/function typeof with possible `then`/`catch` members; Error
and AggregateError instances have no callable `then`/`catch`. -/
def Value.isAwaitable : Value → Bool
  | .obj th ca p _ => p || (th && ca)
  | _ => false

/-- Projection letting a consumer recover the two bundled failures from an
aggregate error, and distinguishing it from every other error value. -/
def Value.aggParts : Value → Option (Value × Value)
  | .aggregate a b _ => some (a, b)
  | _ => none

/-- The two-element outcome tuple `[data, error]` returned by the library:
first component the data slot, second the error slot; the no-data and
no-error markers are the literal null. -/
abbrev Outcome := Value × Value

/-- A caller-supplied error transformer `(error: unknown) => E`; it may
itself throw, modelled by the Except error position. -/
abbrev Transformer := Value → Except Value Value

/-- Model of a zero-argument operation by its observable behaviour.
`throws e` is a synchronous throw of `e`.  `ret v settled` returns the
value `v`; when `v` is awaitable, `settled` records how awaiting it
settles (resolution `.ok` or rejection `.error`); when `v` is not
awaitable, `settled` is irrelevant. -/
inductive Op where
  | throws (e : Value)
  | ret (v : Value) (settled : Except Value Value)

/-- Message of the AggregateError built in src/index.ts lines 348-351
(quotation marks around the word errors elided). -/
def aggregateMsg : String :=
  "Error transforming error. Both errors are in the errors property."

/-- The transformError helper of src/index.ts lines 341-353: identity when
no transformer is supplied; otherwise apply the transformer, and if the
transformer itself throws, return an AggregateError bundling the original
failure and the transformer failure.  Total, because the source wraps the
transformer call in try/catch and the AggregateError construction cannot
throw. -/
def transformError (error : Value) (transformer : Option Transformer) : Value :=
  match transformer with
  | none => error
  | some f =>
    match f error with
    | .ok e => e
    | .error tfe => .aggregate error tfe aggregateMsg

/-- The handleError closure of src/index.ts lines 16-19: builds the
failure outcome `[null, transformError(error, errorTransformer)]`. -/
def handleError (t : Option Transformer) (error : Value) : Outcome :=
  (.vNull, transformError error t)

deriving instance DecidableEq for Except

/-- What a call to neatCatch evaluates to: either a synchronously returned
outcome, or an awaitable of an outcome whose settlement is `settled`
(`.error` would be a rejected awaitable). -/
inductive NCRet where
  | sync (o : Outcome)
  | async (settled : Except Value Outcome)
deriving DecidableEq, Repr

/-- neatCatch of src/index.ts lines 10-40.  The codomain `.error` position
models neatCatch itself throwing synchronously; every branch is `.ok`
because the try/catch covers the whole body and handleError is total.
A synchronous throw of the operation is caught and converted (line 37);
an awaitable return is chained with `.then(data => [data, null])` and
`.catch(handleError)`, so its settlement maps a resolution `d` to
`[d, null]` and a rejection `e` to `[null, transformError e]`; any other
return value is wrapped as `[result, null]` synchronously (line 36). -/
def neatCatch (fn : Op) (t : Option Transformer) : Except Value NCRet :=
  match fn with
  | .throws e => .ok (.sync (handleError t e))
  | .ret v settled =>
    if v.isAwaitable then
      .ok (.async (match settled with
        | .ok d => .ok (d, .vNull)
        | .error e => .ok (handleError t e)))
    else
      .ok (.sync (v, .vNull))

/-- createNeatWrapper of src/index.ts lines 63-69: the wrapped function
applies the arguments and delegates to neatCatch on the resulting
zero-argument operation `() => fn(...args)`. -/
def createNeatWrapper {α : Type} (fn : α → Op) (t : Option Transformer) :
    α → Except Value NCRet :=
  fun args => neatCatch (fn args) t

/-- Awaiting the return value of neatCatch: a synchronous outcome awaits
to itself; an awaitable yields its settlement (rejection propagates). -/
def awaitNC : NCRet → Except Value Outcome
  | .sync o => .ok o
  | .async s => s

/-- Result of `await neatCatch(fn, t)`: rejects if neatCatch throws or its
returned awaitable rejects (provably neither happens). -/
def ncAwait (fn : Op) (t : Option Transformer) : Except Value Outcome :=
  (neatCatch fn t).bind awaitNC

/-- The NCRet value neatCatch actually produces (neatCatch never throws,
see neatCatch_eq). -/
def ncrOf (fn : Op) (t : Option Transformer) : NCRet :=
  match fn with
  | .throws e => .sync (handleError t e)
  | .ret v settled =>
    if v.isAwaitable then
      .async (match settled with
        | .ok d => .ok (d, .vNull)
        | .error e => .ok (handleError t e))
    else
      .sync (v, .vNull)

/-- The outcome `await neatCatch(fn, t)` actually yields (see
ncAwait_eq). -/
def ncOutcome (fn : Op) (t : Option Transformer) : Outcome :=
  match fn with
  | .throws e => (.vNull, transformError e t)
  | .ret v settled =>
    if v.isAwaitable then
      match settled with
      | .ok d => (d, .vNull)
      | .error e => (.vNull, transformError e t)
    else
      (v, .vNull)

/-- Operation `fn` succeeds with value `x`: it returns `x` directly, or
returns an awaitable that resolves to `x`. -/
def opSucceedsWith : Op → Value → Bool
  | .throws _, _ => false
  | .ret v settled, x =>
    if v.isAwaitable then
      match settled with
      | .ok d => decide (d = x)
      | .error _ => false
    else
      decide (v = x)

/-- Operation `fn` fails with value `x`: it throws `x` synchronously, or
returns an awaitable that rejects with `x`. -/
def opFailsWith : Op → Value → Bool
  | .throws e, x => decide (e = x)
  | .ret v settled, x =>
    if v.isAwaitable then
      match settled with
      | .ok _ => false
      | .error e => decide (e = x)
    else
      false

/-- The JavaScript `operations.map(op => neatCatch(op, t))` of
src/index.ts line 87: a map that propagates a synchronous throw of the
callback (which provably never happens). -/
def mapNeat (t : Option Transformer) : List Op → Except Value (List NCRet)
  | [] => .ok []
  | op :: rest =>
    match neatCatch op t with
    | .error e => .error e
    | .ok r => (mapNeat t rest).map (fun rs => r :: rs)

/-- Per-index assignment to `results` in the forEach of src/index.ts
lines 93-104: on a fulfilled entry `[data, error]`, `results[index]` is
set to `data` exactly when `error` is falsy; a rejected entry never sets
`results`. -/
def entryResult : Except Value Outcome → Option Value
  | .ok (data, error) => if error.truthy then none else some data
  | .error _ => none

/-- Per-index assignment to `errors` in the forEach of src/index.ts lines
93-104: on a fulfilled entry it is set to the (already transformed) error
exactly when that error is truthy; on a rejected entry it is set to
`transformError(reason, errorTransformer)`. -/
def entryError (t : Option Transformer) : Except Value Outcome → Option Value
  | .ok (_, error) => if error.truthy then some error else none
  | .error reason => some (transformError reason t)

/-- The value resolved by neatCatchAll: two index-aligned sequences of
optional slots (a `none` slot models an unset sparse-array index), each
collapsed to the absent marker `none` when no slot was ever set, mirroring
`results.length ? results : null` of src/index.ts lines 106-111. -/
structure Batch where
  results : Option (List (Option Value))
  errors : Option (List (Option Value))
deriving DecidableEq, Repr

/-- Assembly of the Batch from the settled entries, src/index.ts lines
90-111.  A JavaScript sparse array is nonempty (`length` truthy) exactly
when some index was assigned. -/
def assemble (t : Option Transformer) (settled : List (Except Value Outcome)) : Batch :=
  let results := settled.map entryResult
  let errors := settled.map (entryError t)
  { results := if results.any Option.isSome then some results else none
    errors := if errors.any Option.isSome then some errors else none }

/-- neatCatchAll of src/index.ts lines 79-112: map neatCatch over the
operations (a synchronous throw there would reject the whole call), let
Promise.allSettled await every entry, and assemble the batch. -/
def neatCatchAll (ops : List Op) (t : Option Transformer) : Except Value Batch :=
  (mapNeat t ops).map (fun rets => assemble t (rets.map awaitNC))

/-- The batch neatCatchAll actually resolves to (see neatCatchAll_eq). -/
def batchOf (ops : List Op) (t : Option Transformer) : Batch :=
  assemble t (ops.map (fun op => .ok (ncOutcome op t)))

/-- Reading slot `i` of the results sequence, with the top-level absent
marker and unset slots both reading as absent. -/
def batchResultAt (b : Batch) (i : Nat) : Option Value :=
  (b.results.getD []).getD i none

/-- Reading slot `i` of the errors sequence, with the top-level absent
marker and unset slots both reading as absent. -/
def batchErrorAt (b : Batch) (i : Nat) : Option Value :=
  (b.errors.getD []).getD i none

/-- The backoff enumeration of src/index.ts line 117. -/
inductive Backoff where
  | linear
  | exponential
deriving DecidableEq, Repr

/-- NeatCatchRetryOptions of src/index.ts lines 114-120, with the defaults
of lines 133-139.  The retry-path error transformer also receives the
1-based attempt number and may itself throw.  The shouldRetry predicate is
modelled as total (a throwing predicate is outside the scope of the
modelled claims). -/
structure RetryOptions where
  maxRetries : Nat := 3
  delay : Nat := 1000
  backoff : Backoff := .exponential
  errorTransformer : Option (Value → Nat → Except Value Value) := none
  shouldRetry : Value → Nat → Bool := fun _ _ => true

/-- The nextDelay computation of src/index.ts lines 157-160, for the
attempt number that just failed: exponential `delay * 2^(attempt-1)`,
linear `delay * attempt`. -/
def nextDelayFor (o : RetryOptions) (attempt : Nat) : Nat :=
  match o.backoff with
  | .exponential => o.delay * 2 ^ (attempt - 1)
  | .linear => o.delay * attempt

/-- The transformedError computation of src/index.ts lines 150-152: when
an errorTransformer option was supplied, apply it through transformError
with the current attempt number; otherwise report the raw failure. -/
def retryReported (o : RetryOptions) (error : Value) (attempt : Nat) : Value :=
  match o.errorTransformer with
  | some f => transformError error (some (fun e => f e attempt))
  | none => error

/-- Observable run of neatCatchRetry: the returned outcome tuple, the
number of times the operation was invoked, and the list of awaited delays
in order. -/
structure RetryTrace where
  outcome : Outcome
  attemptsMade : Nat
  waits : List Nat
deriving DecidableEq, Repr

/-- The retry loop of src/index.ts lines 141-167, iterating over the list
of attempt numbers `1, ..., maxRetries + 1` (the operation at attempt `n`
is `fnAt n`).  Each iteration awaits `neatCatch(fn)` (a rejection there
would reject the whole call; provably it never does), returns
`[data, null]` when the error slot is falsy, otherwise either returns
`[null, transformedError]` when `!isLastAttempt && shouldRetry(error,
attempt)` fails, or awaits the backoff delay and continues.  The `[]` case
is the defensive `return [null, new Error("Unexpected retry loop exit")]`
after the loop (line 167). -/
def retryLoop (fnAt : Nat → Op) (o : RetryOptions) : List Nat → Except Value RetryTrace
  | [] =>
    .ok { outcome := (.vNull, .errorObj "Error" "Unexpected retry loop exit")
          attemptsMade := 0
          waits := [] }
  | attempt :: rest =>
    match ncAwait (fnAt attempt) none with
    | .error e => .error e
    | .ok (data, error) =>
      if !error.truthy then
        .ok { outcome := (data, .vNull), attemptsMade := 1, waits := [] }
      else
        let isLastAttempt : Bool := attempt == o.maxRetries + 1
        let shouldContinue : Bool := !isLastAttempt && o.shouldRetry error attempt
        if !shouldContinue then
          .ok { outcome := (.vNull, retryReported o error attempt)
                attemptsMade := 1
                waits := [] }
        else
          (retryLoop fnAt o rest).map (fun tr =>
            { outcome := tr.outcome
              attemptsMade := tr.attemptsMade + 1
              waits := nextDelayFor o attempt :: tr.waits })

/-- neatCatchRetry of src/index.ts lines 129-168: run the loop over
attempts `1, ..., maxRetries + 1`. -/
def neatCatchRetry (fnAt : Nat → Op) (o : RetryOptions) : Except Value RetryTrace :=
  retryLoop fnAt o (List.range' 1 (o.maxRetries + 1))

theorem neatCatch_eq (fn : Op) (t : Option Transformer) :
    neatCatch fn t = .ok (ncrOf fn t) := by
  cases fn with
  | throws e => rfl
  | ret v s =>
    simp only [neatCatch, ncrOf]
    split <;> rfl

theorem awaitNC_ncrOf (fn : Op) (t : Option Transformer) :
    awaitNC (ncrOf fn t) = .ok (ncOutcome fn t) := by
  cases fn with
  | throws e => rfl
  | ret v s =>
    simp only [ncrOf, ncOutcome]
    split
    · cases s <;> rfl
    · rfl

theorem ncAwait_eq (fn : Op) (t : Option Transformer) :
    ncAwait fn t = .ok (ncOutcome fn t) := by
  rw [ncAwait, neatCatch_eq, Except.bind, awaitNC_ncrOf]

theorem transformError_none (e : Value) : transformError e none = e := rfl

theorem ncOutcome_of_succeeds (fn : Op) (t : Option Transformer) (v : Value)
    (h : opSucceedsWith fn v = true) : ncOutcome fn t = (v, .vNull) := by
  cases fn with
  | throws e => simp [opSucceedsWith] at h
  | ret w s =>
    simp only [opSucceedsWith] at h
    simp only [ncOutcome]
    split at h
    · cases s with
      | ok d =>
        obtain rfl : d = v := of_decide_eq_true h
        simp [*]
      | error e => simp at h
    · obtain rfl : w = v := of_decide_eq_true h
      simp [*]

theorem ncOutcome_of_fails (fn : Op) (t : Option Transformer) (e : Value)
    (h : opFailsWith fn e = true) : ncOutcome fn t = (.vNull, transformError e t) := by
  cases fn with
  | throws x =>
    simp only [opFailsWith] at h
    obtain rfl : x = e := of_decide_eq_true h
    rfl
  | ret w s =>
    simp only [opFailsWith] at h
    simp only [ncOutcome]
    split at h
    · cases s with
      | ok d => simp at h
      | error x =>
        obtain rfl : x = e := of_decide_eq_true h
        simp [*]
    · simp at h

theorem mapNeat_eq (t : Option Transformer) (ops : List Op) :
    mapNeat t ops = .ok (ops.map (fun op => ncrOf op t)) := by
  induction ops with
  | nil => rfl
  | cons op rest ih =>
    simp only [mapNeat, neatCatch_eq, ih, Except.map, List.map]

theorem neatCatchAll_eq (ops : List Op) (t : Option Transformer) :
    neatCatchAll ops t = .ok (batchOf ops t) := by
  have hmap : (ops.map (fun op => ncrOf op t)).map awaitNC
      = ops.map (fun op => Except.ok (ncOutcome op t)) := by
    rw [List.map_map]
    exact List.map_congr_left (fun op _ => awaitNC_ncrOf op t)
  simp only [neatCatchAll, mapNeat_eq, Except.map, hmap, batchOf]

theorem batchOf_results (ops : List Op) (t : Option Transformer) :
    (batchOf ops t).results =
      if (ops.map (fun op => entryResult (.ok (ncOutcome op t)))).any Option.isSome
      then some (ops.map (fun op => entryResult (.ok (ncOutcome op t))))
      else none := by
  simp only [batchOf, assemble, List.map_map]
  rfl

theorem batchOf_errors (ops : List Op) (t : Option Transformer) :
    (batchOf ops t).errors =
      if (ops.map (fun op => entryError t (.ok (ncOutcome op t)))).any Option.isSome
      then some (ops.map (fun op => entryError t (.ok (ncOutcome op t))))
      else none := by
  simp only [batchOf, assemble, List.map_map]
  rfl

theorem getD_map_of_lt {α β : Type} (l : List α) (f : α → Option β) (i : Nat)
    (h : i < l.length) : (l.map f).getD i none = f l[i] := by
  rw [List.getD_eq_getElem?_getD, List.getElem?_map, List.getElem?_eq_getElem h]
  rfl

theorem batchResultAt_eq (ops : List Op) (t : Option Transformer) (i : Nat)
    (h : i < ops.length) :
    batchResultAt (batchOf ops t) i = entryResult (.ok (ncOutcome ops[i] t)) := by
  rw [batchResultAt, batchOf_results]
  split
  · rw [Option.getD_some, getD_map_of_lt _ _ _ h]
  · next hno =>
    have hall : ∀ x ∈ ops, entryResult (.ok (ncOutcome x t)) = none := by
      simpa using hno
    rw [hall ops[i] (List.getElem_mem h)]
    rfl

theorem batchErrorAt_eq (ops : List Op) (t : Option Transformer) (i : Nat)
    (h : i < ops.length) :
    batchErrorAt (batchOf ops t) i = entryError t (.ok (ncOutcome ops[i] t)) := by
  rw [batchErrorAt, batchOf_errors]
  split
  · rw [Option.getD_some, getD_map_of_lt _ _ _ h]
  · next hno =>
    have hall : ∀ x ∈ ops, entryError t (.ok (ncOutcome x t)) = none := by
      simpa using hno
    rw [hall ops[i] (List.getElem_mem h)]
    rfl

theorem retryLoop_ok (fnAt : Nat → Op) (o : RetryOptions) (l : List Nat) :
    ∃ tr, retryLoop fnAt o l = .ok tr := by
  induction l with
  | nil => exact ⟨_, rfl⟩
  | cons a rest ih =>
    obtain ⟨tr, htr⟩ := ih
    rcases hoc : ncOutcome (fnAt a) none with ⟨d, e⟩
    simp only [retryLoop, ncAwait_eq, hoc]
    split
    · exact ⟨_, rfl⟩
    · split
      · exact ⟨_, rfl⟩
      · rw [htr]
        exact ⟨_, rfl⟩

theorem retryLoop_length (fnAt : Nat → Op) (o : RetryOptions) :
    ∀ (l : List Nat) (tr : RetryTrace),
      retryLoop fnAt o l = .ok tr → tr.attemptsMade ≤ l.length := by
  intro l
  induction l with
  | nil =>
    intro tr h
    simp only [retryLoop, Except.ok.injEq] at h
    subst h
    exact Nat.le_refl 0
  | cons a rest ih =>
    intro tr h
    rcases hoc : ncOutcome (fnAt a) none with ⟨d, e⟩
    simp only [retryLoop, ncAwait_eq, hoc] at h
    split at h
    · simp only [Except.ok.injEq] at h
      subst h
      simp [List.length_cons]
    · split at h
      · simp only [Except.ok.injEq] at h
        subst h
        simp [List.length_cons]
      · rcases hr : retryLoop fnAt o rest with x | tr'
        · rw [hr] at h
          simp [Except.map] at h
        · rw [hr] at h
          simp only [Except.map, Except.ok.injEq] at h
          subst h
          have := ih tr' hr
          simp only [List.length_cons]
          omega

theorem retryLoop_cons_fail_continue (fnAt : Nat → Op) (o : RetryOptions)
    (attempt : Nat) (rest : List Nat) (e : Value)
    (hfe : opFailsWith (fnAt attempt) e = true) (hte : e.truthy = true)
    (hnl : attempt ≠ o.maxRetries + 1) (hsr : o.shouldRetry e attempt = true) :
    retryLoop fnAt o (attempt :: rest) =
      (retryLoop fnAt o rest).map (fun tr =>
        { outcome := tr.outcome, attemptsMade := tr.attemptsMade + 1,
          waits := nextDelayFor o attempt :: tr.waits }) := by
  have hoc : ncOutcome (fnAt attempt) none = (.vNull, e) := by
    rw [ncOutcome_of_fails _ _ _ hfe]
    rfl
  have hb : (attempt == o.maxRetries + 1) = false := by simp [hnl]
  simp [retryLoop, ncAwait_eq, hoc, hte, hb, hsr]

theorem retryLoop_cons_fail_stop (fnAt : Nat → Op) (o : RetryOptions)
    (attempt : Nat) (rest : List Nat) (e : Value)
    (hfe : opFailsWith (fnAt attempt) e = true) (hte : e.truthy = true)
    (hstop : attempt = o.maxRetries + 1 ∨ o.shouldRetry e attempt = false) :
    retryLoop fnAt o (attempt :: rest) =
      .ok { outcome := (.vNull, retryReported o e attempt)
            attemptsMade := 1
            waits := [] } := by
  have hoc : ncOutcome (fnAt attempt) none = (.vNull, e) := by
    rw [ncOutcome_of_fails _ _ _ hfe]
    rfl
  rcases hstop with h | h
  · have hb : (attempt == o.maxRetries + 1) = true := by simp [h]
    simp [retryLoop, ncAwait_eq, hoc, hte, hb]
  · by_cases hb : (attempt == o.maxRetries + 1) = true
    · simp [retryLoop, ncAwait_eq, hoc, hte, hb]
    · simp only [Bool.not_eq_true] at hb
      simp [retryLoop, ncAwait_eq, hoc, hte, hb, h]

theorem retryLoop_all_fail (fnAt : Nat → Op) (o : RetryOptions)
    (hf : ∀ n, ∃ e, opFailsWith (fnAt n) e = true ∧ e.truthy = true)
    (hsr : ∀ e n, o.shouldRetry e n = true) :
    ∀ k a, a + k = o.maxRetries + 1 →
      ∃ tr, retryLoop fnAt o (List.range' a (k + 1)) = .ok tr ∧
        tr.attemptsMade = k + 1 ∧
        tr.waits = (List.range' a k).map (nextDelayFor o) ∧
        tr.outcome.1 = .vNull ∧
        (o.errorTransformer = none → tr.outcome.2.truthy = true) := by
  intro k
  induction k with
  | zero =>
    intro a ha
    obtain ⟨e, hfe, hte⟩ := hf a
    refine ⟨{ outcome := (.vNull, retryReported o e a), attemptsMade := 1, waits := [] },
      ?_, rfl, rfl, rfl, ?_⟩
    · rw [show List.range' a 1 = [a] from rfl]
      exact retryLoop_cons_fail_stop fnAt o a [] e hfe hte (Or.inl (by omega))
    · intro hnone
      simp only [retryReported, hnone]
      exact hte
  | succ k ih =>
    intro a ha
    obtain ⟨e, hfe, hte⟩ := hf a
    obtain ⟨tr, htr, h1, h2, h3, h4⟩ := ih (a + 1) (by omega)
    refine ⟨{ outcome := tr.outcome, attemptsMade := tr.attemptsMade + 1,
              waits := nextDelayFor o a :: tr.waits }, ?_,
      by show tr.attemptsMade + 1 = k + 1 + 1; omega, ?_, h3, h4⟩
    · rw [List.range'_succ,
        retryLoop_cons_fail_continue fnAt o a _ e hfe hte (by omega) (hsr e a), htr]
      rfl
    · rw [List.range'_succ, List.map_cons, h2]

/-- C1: no core operation ever throws synchronously or ever produces a
rejected awaitable.  For every zero-argument operation and every (possibly
throwing) error transformer, neatCatch returns a value-level outcome,
either synchronously or as an awaitable that resolves; a function
returned by createNeatWrapper does the same on every argument list; and
neatCatchAll and neatCatchRetry always resolve to a value-level result,
whatever the operations throw or reject with. -/
theorem core_never_throws_or_rejects :
    (∀ (fn : Op) (t : Option Transformer), ∃ o : Outcome,
        neatCatch fn t = .ok (.sync o) ∨ neatCatch fn t = .ok (.async (.ok o))) ∧
    (∀ (α : Type) (fn : α → Op) (t : Option Transformer), ∀ args : α, ∃ o : Outcome,
        createNeatWrapper fn t args = .ok (.sync o) ∨
        createNeatWrapper fn t args = .ok (.async (.ok o))) ∧
    (∀ (ops : List Op) (t : Option Transformer), ∃ b : Batch,
        neatCatchAll ops t = .ok b) ∧
    (∀ (fnAt : Nat → Op) (o : RetryOptions), ∃ tr : RetryTrace,
        neatCatchRetry fnAt o = .ok tr) := by
  have hnc : ∀ (fn : Op) (t : Option Transformer), ∃ o : Outcome,
      neatCatch fn t = .ok (.sync o) ∨ neatCatch fn t = .ok (.async (.ok o)) := by
    intro fn t
    cases fn with
    | throws e => exact ⟨handleError t e, Or.inl rfl⟩
    | ret v s =>
      by_cases hv : v.isAwaitable = true
      · cases s with
        | ok d => exact ⟨(d, .vNull), Or.inr (by simp [neatCatch, hv])⟩
        | error e => exact ⟨handleError t e, Or.inr (by simp [neatCatch, hv])⟩
      · exact ⟨(v, .vNull), Or.inl (by simp [neatCatch, hv])⟩
  refine ⟨hnc, fun α fn t args => hnc (fn args) t, ?_, ?_⟩
  · intro ops t
    exact ⟨batchOf ops t, neatCatchAll_eq ops t⟩
  · intro fnAt o
    exact retryLoop_ok fnAt o _

/-- C2 counterexample: an operation that throws null yields the outcome
(null, null), literally identical to the outcome of a successful operation
whose legitimate value is null, so the failure is not distinguishable by
outcome position and neither slot of that failure outcome is meaningful,
refuting the claimed exclusivity for nullish failure values. -/
theorem outcome_exclusivity_counterexample :
    ncOutcome (.throws .vNull) none = ncOutcome (.ret .vNull (.ok .vNull)) none ∧
    ncOutcome (.throws .vNull) none = (Value.vNull, Value.vNull) ∧
    opFailsWith (.throws .vNull) .vNull = true ∧
    opSucceedsWith (.ret .vNull (.ok .vNull)) .vNull = true := by decide

/-- C2 amended: the outcome of neatCatch is (value, null) on success and
(null, transformedFailure) on failure; exactly one slot is meaningful and
the failure is distinguishable from a success with value null whenever the
transformed failure value is not itself the null marker.  When the
(transformed) failure value is null, the failure outcome is (null, null),
identical to a success whose value is null. -/
theorem outcome_exclusivity_amended (fn : Op) (t : Option Transformer) :
    (∀ v, opSucceedsWith fn v = true → ncOutcome fn t = (v, .vNull)) ∧
    (∀ e, opFailsWith fn e = true → ncOutcome fn t = (.vNull, transformError e t)) ∧
    (∀ e, opFailsWith fn e = true → transformError e t ≠ .vNull →
        (ncOutcome fn t).1 = .vNull ∧ (ncOutcome fn t).2 ≠ .vNull) := by
  refine ⟨fun v hv => ncOutcome_of_succeeds fn t v hv,
          fun e he => ncOutcome_of_fails fn t e he, fun e he hne => ?_⟩
  rw [ncOutcome_of_fails fn t e he]
  exact ⟨rfl, hne⟩

theorem outcome_exclusivity_amended_witness :
    ncOutcome (.throws (.errorObj "Error" "boom")) none
      = (.vNull, .errorObj "Error" "boom") ∧
    (ncOutcome (.throws (.errorObj "Error" "boom")) none).2 ≠ .vNull :=
  ⟨(outcome_exclusivity_amended (.throws (.errorObj "Error" "boom")) none).2.1
      (.errorObj "Error" "boom") (by decide),
   ((outcome_exclusivity_amended (.throws (.errorObj "Error" "boom")) none).2.2
      (.errorObj "Error" "boom") (by decide) (by decide)).2⟩

/-- C3: an operation returning a plain (non-awaitable) value v gives the
synchronous outcome (v, null) with no suspension; an operation whose
return value is detected as awaitable gives an awaitable of an outcome,
resolving to (d, null) when the value resolves to d; and for values that
are not instances of the built-in Promise type, detection is exactly the
duck-typed capability check: callable then and callable catch. -/
theorem sync_async_transparency (v : Value) (s : Except Value Value)
    (t : Option Transformer) :
    (v.isAwaitable = false → neatCatch (.ret v s) t = .ok (.sync (v, .vNull))) ∧
    (∀ d, v.isAwaitable = true → s = .ok d →
        neatCatch (.ret v s) t = .ok (.async (.ok (d, .vNull)))) ∧
    (∀ (th ca : Bool) (i : Nat),
        Value.isAwaitable (.obj th ca false i) = (th && ca)) := by
  refine ⟨fun hv => by simp [neatCatch, hv],
          fun d hv hs => by simp [neatCatch, hv, hs], ?_⟩
  intro th ca i
  simp [Value.isAwaitable]

theorem sync_async_transparency_witness :
    neatCatch (.ret (.prim true 42) (.ok .vNull)) none
      = .ok (.sync (.prim true 42, .vNull)) ∧
    neatCatch (.ret (.obj true true false 7) (.ok (.prim true 1))) none
      = .ok (.async (.ok (.prim true 1, .vNull))) :=
  ⟨(sync_async_transparency (.prim true 42) (.ok .vNull) none).1 (by decide),
   (sync_async_transparency (.obj true true false 7) (.ok (.prim true 1)) none).2.1
      (.prim true 1) (by decide) rfl⟩

/-- C7: when a supplied error transformer itself throws on the failure
value, the exception is contained rather than propagated: the transform
step yields an AggregateError bundling the original failure and the
transformer failure, tagged so both are recoverable through aggParts, and
neatCatch still returns a failure outcome both on the synchronous-throw
path and on the rejected-awaitable path. -/
theorem transformer_failure_containment (e tf : Value) (f : Transformer)
    (hf : f e = .error tf) :
    transformError e (some f) = .aggregate e tf aggregateMsg ∧
    (transformError e (some f)).aggParts = some (e, tf) ∧
    neatCatch (.throws e) (some f)
      = .ok (.sync (.vNull, .aggregate e tf aggregateMsg)) ∧
    (∀ v : Value, v.isAwaitable = true →
        neatCatch (.ret v (.error e)) (some f)
          = .ok (.async (.ok (.vNull, .aggregate e tf aggregateMsg)))) := by
  have h1 : transformError e (some f) = .aggregate e tf aggregateMsg := by
    simp [transformError, hf]
  refine ⟨h1, by rw [h1]; rfl, ?_, ?_⟩
  · simp [neatCatch, handleError, h1]
  · intro v hv
    simp [neatCatch, handleError, hv, h1]

theorem transformer_failure_containment_witness :
    transformError (.prim true 9) (some (fun _ => .error (.errorObj "Error" "tboom")))
      = .aggregate (.prim true 9) (.errorObj "Error" "tboom") aggregateMsg :=
  (transformer_failure_containment (.prim true 9) (.errorObj "Error" "tboom")
      (fun _ => .error (.errorObj "Error" "tboom")) rfl).1

/-- C10: neatCatchAll on an empty operations list resolves to the batch
with both top-level sequences absent, { results := null, errors := null },
which matches the results slot of an all-failed batch and the errors slot
of an all-succeeded batch, so the empty batch is not distinguishable at
the top level from either. -/
theorem empty_batch_collapse :
    (∀ t : Option Transformer,
        neatCatchAll [] t = .ok { results := none, errors := none }) ∧
    neatCatchAll [.throws (.errorObj "Error" "z")] none
      = .ok { results := none, errors := some [some (.errorObj "Error" "z")] } ∧
    neatCatchAll [.ret (.prim true 1) (.ok .vNull)] none
      = .ok { results := some [some (.prim true 1)], errors := none } :=
  ⟨fun t => rfl, by decide, by decide⟩

/-- C4 counterexample: a batch whose single operation fails — its
awaitable rejects with the falsy primitive false — produces a batch where
errors is the absent marker (errors[0] unpopulated) and results[0] is
populated with null, because the collector classifies entries by the
truthiness of the error slot, refuting the claimed equivalences between
failure and errors[i] population and between success and results[i]
population. -/
theorem batch_alignment_counterexample :
    opFailsWith (.ret (.obj true true true 0) (.error (.prim false 1)))
      (.prim false 1) = true ∧
    neatCatchAll [.ret (.obj true true true 0) (.error (.prim false 1))] none
      = .ok { results := some [some .vNull], errors := none } := by decide

/-- C4 amended: for each index i of the batch, if operation i succeeds
with value v then results[i] = v and errors[i] is absent; if operation i
fails and its transformed failure value is truthy then errors[i] is that
transformed failure and results[i] is absent; but if operation i fails
with a falsy transformed failure value it is recorded as a success:
results[i] = null and errors[i] absent.  At most one slot is populated per
index and the correspondence is with the input index. -/
theorem batch_alignment_amended (ops : List Op) (t : Option Transformer)
    (i : Nat) (hi : i < ops.length) (b : Batch)
    (hb : neatCatchAll ops t = .ok b) :
    (∀ v, opSucceedsWith ops[i] v = true →
        batchResultAt b i = some v ∧ batchErrorAt b i = none) ∧
    (∀ e, opFailsWith ops[i] e = true → (transformError e t).truthy = true →
        batchErrorAt b i = some (transformError e t) ∧ batchResultAt b i = none) ∧
    (∀ e, opFailsWith ops[i] e = true → (transformError e t).truthy = false →
        batchResultAt b i = some .vNull ∧ batchErrorAt b i = none) := by
  rw [neatCatchAll_eq] at hb
  injection hb with hb
  subst hb
  refine ⟨fun v hv => ?_, fun e he ht => ?_, fun e he ht => ?_⟩
  · rw [batchResultAt_eq ops t i hi, batchErrorAt_eq ops t i hi,
      ncOutcome_of_succeeds _ t _ hv]
    exact ⟨rfl, rfl⟩
  · rw [batchResultAt_eq ops t i hi, batchErrorAt_eq ops t i hi,
      ncOutcome_of_fails _ t _ he]
    exact ⟨by simp [entryError, ht], by simp [entryResult, ht]⟩
  · rw [batchResultAt_eq ops t i hi, batchErrorAt_eq ops t i hi,
      ncOutcome_of_fails _ t _ he]
    exact ⟨by simp [entryResult, ht], by simp [entryError, ht]⟩

theorem batch_alignment_amended_witness :
    batchErrorAt { results := some [some (.prim true 5), none]
                   errors := some [none, some (.errorObj "Error" "bad")] } 1
      = some (.errorObj "Error" "bad") ∧
    batchResultAt { results := some [some (.prim true 5), none]
                    errors := some [none, some (.errorObj "Error" "bad")] } 1
      = none :=
  (batch_alignment_amended
      [.ret (.prim true 5) (.ok .vNull), .throws (.errorObj "Error" "bad")]
      none 1 (by decide)
      { results := some [some (.prim true 5), none]
        errors := some [none, some (.errorObj "Error" "bad")] }
      (by decide)).2.1 (.errorObj "Error" "bad") (by decide) (by decide)

/-- C9 counterexample: a non-empty batch in which every operation fails —
both awaitables reject, one with the falsy primitive false and one with
null — returns results as a populated sequence [null, null] rather than
the absent marker, and errors as the absent marker, refuting the claimed
all-failure collapse. -/
theorem batch_collapse_counterexample :
    opFailsWith (.ret (.obj true true true 2) (.error (.prim false 3)))
      (.prim false 3) = true ∧
    opFailsWith (.ret (.obj true true true 4) (.error .vNull)) .vNull = true ∧
    neatCatchAll [.ret (.obj true true true 2) (.error (.prim false 3)),
                  .ret (.obj true true true 4) (.error .vNull)] none
      = .ok { results := some [some .vNull, some .vNull], errors := none } := by
  decide

/-- C9 amended: for a non-empty batch, if every operation succeeds then
errors is the absent marker and results is present; if every operation
fails with a truthy transformed failure value then results is the absent
marker and errors is present; and a batch containing both a success and a
truthy failure has both sequences present as sparse index-aligned
sequences.  An operation failing with a falsy transformed failure value
instead counts as a success with value null for this collapse. -/
theorem batch_collapse_amended (ops : List Op) (t : Option Transformer)
    (hne : ops ≠ []) (b : Batch) (hb : neatCatchAll ops t = .ok b) :
    ((∀ fn ∈ ops, ∃ v, opSucceedsWith fn v = true) →
        b.errors = none ∧ b.results ≠ none) ∧
    ((∀ fn ∈ ops, ∃ e, opFailsWith fn e = true ∧ (transformError e t).truthy = true) →
        b.results = none ∧ b.errors ≠ none) ∧
    ((∃ fn ∈ ops, ∃ v, opSucceedsWith fn v = true) →
        (∃ fn ∈ ops, ∃ e, opFailsWith fn e = true ∧ (transformError e t).truthy = true) →
        b.results ≠ none ∧ b.errors ≠ none) := by
  rw [neatCatchAll_eq] at hb
  injection hb with hb
  subst hb
  have hres_succ : ∀ (fn : Op) (v : Value), opSucceedsWith fn v = true →
      entryResult (.ok (ncOutcome fn t)) = some v := by
    intro fn v hv
    rw [ncOutcome_of_succeeds fn t v hv]
    rfl
  have herr_succ : ∀ (fn : Op) (v : Value), opSucceedsWith fn v = true →
      entryError t (.ok (ncOutcome fn t)) = none := by
    intro fn v hv
    rw [ncOutcome_of_succeeds fn t v hv]
    rfl
  have hres_fail : ∀ (fn : Op) (e : Value), opFailsWith fn e = true →
      (transformError e t).truthy = true →
      entryResult (.ok (ncOutcome fn t)) = none := by
    intro fn e he ht
    rw [ncOutcome_of_fails fn t e he]
    simp [entryResult, ht]
  have herr_fail : ∀ (fn : Op) (e : Value), opFailsWith fn e = true →
      (transformError e t).truthy = true →
      entryError t (.ok (ncOutcome fn t)) = some (transformError e t) := by
    intro fn e he ht
    rw [ncOutcome_of_fails fn t e he]
    simp [entryError, ht]
  refine ⟨fun hall => ?_, fun hall => ?_, ?_⟩
  · constructor
    · have hno : (ops.map (fun op => entryError t (.ok (ncOutcome op t)))).any
          Option.isSome = false := by
        rw [List.any_eq_false]
        intro x hx
        obtain ⟨op, hop, rfl⟩ := List.mem_map.mp hx
        obtain ⟨v, hv⟩ := hall op hop
        rw [herr_succ op v hv]
        simp
      rw [batchOf_errors, hno]
      simp
    · obtain ⟨op0, hop0⟩ := List.exists_mem_of_ne_nil ops hne
      obtain ⟨v, hv⟩ := hall op0 hop0
      have hany : (ops.map (fun op => entryResult (.ok (ncOutcome op t)))).any
          Option.isSome = true := by
        rw [List.any_eq_true]
        exact ⟨some v, List.mem_map.mpr ⟨op0, hop0, hres_succ op0 v hv⟩, rfl⟩
      rw [batchOf_results, hany]
      simp
  · constructor
    · have hno : (ops.map (fun op => entryResult (.ok (ncOutcome op t)))).any
          Option.isSome = false := by
        rw [List.any_eq_false]
        intro x hx
        obtain ⟨op, hop, rfl⟩ := List.mem_map.mp hx
        obtain ⟨e, he, ht⟩ := hall op hop
        rw [hres_fail op e he ht]
        simp
      rw [batchOf_results, hno]
      simp
    · obtain ⟨op0, hop0⟩ := List.exists_mem_of_ne_nil ops hne
      obtain ⟨e, he, ht⟩ := hall op0 hop0
      have hany : (ops.map (fun op => entryError t (.ok (ncOutcome op t)))).any
          Option.isSome = true := by
        rw [List.any_eq_true]
        exact ⟨some (transformError e t),
          List.mem_map.mpr ⟨op0, hop0, herr_fail op0 e he ht⟩, rfl⟩
      rw [batchOf_errors, hany]
      simp
  · rintro ⟨opS, hopS, v, hv⟩ ⟨opF, hopF, e, he, ht⟩
    constructor
    · have hany : (ops.map (fun op => entryResult (.ok (ncOutcome op t)))).any
          Option.isSome = true := by
        rw [List.any_eq_true]
        exact ⟨some v, List.mem_map.mpr ⟨opS, hopS, hres_succ opS v hv⟩, rfl⟩
      rw [batchOf_results, hany]
      simp
    · have hany : (ops.map (fun op => entryError t (.ok (ncOutcome op t)))).any
          Option.isSome = true := by
        rw [List.any_eq_true]
        exact ⟨some (transformError e t),
          List.mem_map.mpr ⟨opF, hopF, herr_fail opF e he ht⟩, rfl⟩
      rw [batchOf_errors, hany]
      simp

theorem batch_collapse_amended_witness :
    ({ results := some [some (.prim true 8)], errors := none } : Batch).errors
      = none ∧
    ({ results := some [some (.prim true 8)], errors := none } : Batch).results
      ≠ none :=
  (batch_collapse_amended [.ret (.prim true 8) (.ok .vNull)] none
      (List.cons_ne_nil _ _)
      { results := some [some (.prim true 8)], errors := none } (by decide)).1
    (fun fn hfn => by
      simp only [List.mem_singleton] at hfn
      subst hfn
      exact ⟨.prim true 8, by decide⟩)

/-- C5 counterexample: against an operation every attempt of which fails —
its awaitable always rejects with the falsy primitive false — and default
options (maxRetries = 3), neatCatchRetry invokes the operation exactly
once and returns the success-shaped outcome (null, null) instead of
invoking it 4 times and returning a failure outcome, because the driver
tests the error slot by truthiness. -/
theorem retry_attempts_counterexample :
    opFailsWith (.ret (.obj true true true 1) (.error (.prim false 0)))
      (.prim false 0) = true ∧
    neatCatchRetry (fun _ => .ret (.obj true true true 1) (.error (.prim false 0))) {}
      = .ok { outcome := (.vNull, .vNull), attemptsMade := 1, waits := [] } := by
  decide

/-- C5 amended: neatCatchRetry makes at most maxRetries + 1 attempts and
never loops unboundedly; against an operation whose every attempt fails
with a truthy failure value, under the default always-true retry
predicate, it invokes the operation exactly maxRetries + 1 times and
returns a failure outcome (null data slot, and with no error transformer a
truthy reported error); with maxRetries = 0 it makes exactly one
invocation with no wait.  An attempt failing with a falsy value is instead
treated as a success and ends the run at that attempt. -/
theorem retry_attempt_bound_amended (fnAt : Nat → Op) (o : RetryOptions) :
    (∀ tr, neatCatchRetry fnAt o = .ok tr → tr.attemptsMade ≤ o.maxRetries + 1) ∧
    ((∀ n, ∃ e, opFailsWith (fnAt n) e = true ∧ e.truthy = true) →
      (∀ e n, o.shouldRetry e n = true) →
      ∀ tr, neatCatchRetry fnAt o = .ok tr →
        tr.attemptsMade = o.maxRetries + 1 ∧ tr.outcome.1 = .vNull ∧
        (o.errorTransformer = none → tr.outcome.2.truthy = true)) ∧
    (o.maxRetries = 0 →
      ∀ tr, neatCatchRetry fnAt o = .ok tr →
        tr.attemptsMade = 1 ∧ tr.waits = []) := by
  refine ⟨?_, ?_, ?_⟩
  · intro tr h
    have hlen := retryLoop_length fnAt o _ tr h
    simpa [List.length_range'] using hlen
  · intro hf hsr tr h
    obtain ⟨tr2, htr2, h1, h2, h3, h4⟩ :=
      retryLoop_all_fail fnAt o hf hsr o.maxRetries 1 (by omega)
    rw [neatCatchRetry] at h
    rw [htr2] at h
    injection h with h
    subst h
    exact ⟨by omega, h3, h4⟩
  · intro h0 tr h
    rw [neatCatchRetry, h0] at h
    rw [show List.range' 1 1 = [1] from rfl] at h
    rcases hoc : ncOutcome (fnAt 1) none with ⟨d, e⟩
    simp only [retryLoop, ncAwait_eq, hoc] at h
    split at h
    · injection h with h
      subst h
      exact ⟨rfl, rfl⟩
    · split at h
      · injection h with h
        subst h
        exact ⟨rfl, rfl⟩
      · next hcond =>
        exfalso
        simp at hcond
        exact hcond.1 h0

theorem retry_attempt_bound_amended_witness :
    ({ outcome := (.vNull, .errorObj "Error" "w5"), attemptsMade := 4,
       waits := [1000, 2000, 4000] } : RetryTrace).attemptsMade
      = ({} : RetryOptions).maxRetries + 1 ∧
    ({ outcome := (.vNull, .errorObj "Error" "w5"), attemptsMade := 4,
       waits := [1000, 2000, 4000] } : RetryTrace).outcome.1 = .vNull ∧
    (({} : RetryOptions).errorTransformer = none →
      ({ outcome := (.vNull, .errorObj "Error" "w5"), attemptsMade := 4,
         waits := [1000, 2000, 4000] } : RetryTrace).outcome.2.truthy = true) :=
  (retry_attempt_bound_amended (fun _ => .throws (.errorObj "Error" "w5")) {}).2.1
    (fun _ => ⟨.errorObj "Error" "w5", by decide, by decide⟩)
    (fun _ _ => rfl)
    { outcome := (.vNull, .errorObj "Error" "w5"), attemptsMade := 4,
      waits := [1000, 2000, 4000] }
    (by decide)

/-- C6 counterexample: with default options (maxRetries 3, default
always-true predicate) and an operation whose awaitable always rejects
with undefined, attempt 1 fails, is not the last attempt, and the
predicate returns true, yet the driver does not retry: it stops after a
single invocation and its reported error slot is null rather than the raw
failure value undefined, because the falsy failure value is classified as
a success. -/
theorem retry_decision_counterexample :
    opFailsWith (.ret (.obj true true true 5) (.error .vUndefined))
      .vUndefined = true ∧
    ({} : RetryOptions).shouldRetry .vUndefined 1 = true ∧
    ({} : RetryOptions).maxRetries = 3 ∧
    neatCatchRetry (fun _ => .ret (.obj true true true 5) (.error .vUndefined)) {}
      = .ok { outcome := (.vNull, .vNull), attemptsMade := 1, waits := [] } := by
  decide

/-- C6 amended: after an attempt that fails with a truthy failure value e,
the driver retries exactly when the attempt is not the last one and
shouldRetry e attempt is true, where shouldRetry receives the untransformed
failure and the 1-based attempt number; when it stops, the reported error
is the raw failure when no errorTransformer option was supplied, and is
errorTransformer(e, attempt) when one was supplied and returns normally;
and a predicate returning false on the second truthy failure stops the
driver after exactly 2 invocations even when maxRetries allows more.
An attempt failing with a falsy value ends the run as a success instead,
with no retry and no reported error. -/
theorem retry_decision_amended (fnAt : Nat → Op) (o : RetryOptions)
    (attempt : Nat) (rest : List Nat) (e : Value)
    (hfe : opFailsWith (fnAt attempt) e = true) (hte : e.truthy = true) :
    ((attempt ≠ o.maxRetries + 1 ∧ o.shouldRetry e attempt = true) →
        retryLoop fnAt o (attempt :: rest) =
          (retryLoop fnAt o rest).map (fun tr =>
            { outcome := tr.outcome, attemptsMade := tr.attemptsMade + 1,
              waits := nextDelayFor o attempt :: tr.waits })) ∧
    ((attempt = o.maxRetries + 1 ∨ o.shouldRetry e attempt = false) →
        retryLoop fnAt o (attempt :: rest) =
          .ok { outcome := (.vNull, retryReported o e attempt)
                attemptsMade := 1
                waits := [] }) ∧
    (o.errorTransformer = none → retryReported o e attempt = e) ∧
    (∀ (f : Value → Nat → Except Value Value) (r : Value),
        o.errorTransformer = some f → f e attempt = .ok r →
        retryReported o e attempt = r) ∧
    (∀ (g : Nat → Op) (o2 : RetryOptions),
        (∀ n, ∃ x, opFailsWith (g n) x = true ∧ x.truthy = true) →
        (∀ x n, o2.shouldRetry x n = decide (n ≠ 2)) →
        2 ≤ o2.maxRetries →
        ∀ tr, neatCatchRetry g o2 = .ok tr → tr.attemptsMade = 2) := by
  refine ⟨fun hc => retryLoop_cons_fail_continue fnAt o attempt rest e hfe hte hc.1 hc.2,
    fun hs => retryLoop_cons_fail_stop fnAt o attempt rest e hfe hte hs, ?_, ?_, ?_⟩
  · intro hnone
    simp [retryReported, hnone]
  · intro f r hsome hfr
    simp [retryReported, hsome, transformError, hfr]
  · intro g o2 hf hp hm tr htr
    obtain ⟨x1, hx1, ht1⟩ := hf 1
    obtain ⟨x2, hx2, ht2⟩ := hf 2
    obtain ⟨k, hk⟩ : ∃ k, o2.maxRetries = k + 2 := ⟨o2.maxRetries - 2, by omega⟩
    rw [neatCatchRetry] at htr
    rw [show List.range' 1 (o2.maxRetries + 1)
        = 1 :: 2 :: List.range' 3 (k + 1) from by
      rw [hk, List.range'_succ, List.range'_succ]] at htr
    rw [retryLoop_cons_fail_continue g o2 1 _ x1 hx1 ht1 (by omega)
      (by simp [hp])] at htr
    rw [retryLoop_cons_fail_stop g o2 2 _ x2 hx2 ht2 (Or.inr (by simp [hp]))] at htr
    simp only [Except.map, Except.ok.injEq] at htr
    subst htr
    rfl

theorem retry_decision_amended_witness :
    retryLoop (fun _ => .throws (.errorObj "Error" "w6")) { maxRetries := 0 } [1]
      = .ok { outcome := (.vNull, .errorObj "Error" "w6")
              attemptsMade := 1
              waits := [] } :=
  (retry_decision_amended (fun _ => .throws (.errorObj "Error" "w6"))
      { maxRetries := 0 } 1 [] (.errorObj "Error" "w6")
      (by decide) (by decide)).2.1 (Or.inl (by decide))

/-- C8 counterexample: with delay = 100, exponential backoff, and the
default maxRetries = 3, against an operation that always throws a truthy
error, the waits inserted after attempts 1, 2, 3 are 100, 200, 400: the
wait after attempt 1 is 100 and the wait after attempt 2 is 200, not the
200 and 400 the claim gives as the exponential waits after attempts 1 and
2 (those example numbers contradict the formula delay * 2^(n-1), which is
what the code implements). -/
theorem backoff_example_counterexample :
    neatCatchRetry (fun _ => .throws (.errorObj "Error" "x")) { delay := 100 }
      = .ok { outcome := (.vNull, .errorObj "Error" "x"), attemptsMade := 4,
              waits := [100, 200, 400] } := by decide

/-- C8 amended: the wait inserted after a failed attempt n (1-based, the
attempt that just failed) is exactly delay * 2^(n-1) for exponential
backoff and delay * n for linear backoff; so with delay = 100 the
exponential waits after attempts 1 and 2 are 100 and 200 (not 200 and
400), and the linear wait after attempt 2 is 200.  In a run whose every
attempt fails with a truthy failure value under the default predicate, the
recorded waits are the image of that formula on attempts 1 to
maxRetries. -/
theorem backoff_formula_amended (fnAt : Nat → Op) (o : RetryOptions)
    (hf : ∀ n, ∃ e, opFailsWith (fnAt n) e = true ∧ e.truthy = true)
    (hsr : ∀ e n, o.shouldRetry e n = true) :
    (∀ tr, neatCatchRetry fnAt o = .ok tr →
        tr.waits = (List.range' 1 o.maxRetries).map (nextDelayFor o)) ∧
    (∀ n, o.backoff = .exponential → nextDelayFor o n = o.delay * 2 ^ (n - 1)) ∧
    (∀ n, o.backoff = .linear → nextDelayFor o n = o.delay * n) := by
  refine ⟨?_, fun n hb => by simp [nextDelayFor, hb], fun n hb => by simp [nextDelayFor, hb]⟩
  intro tr htr
  obtain ⟨tr2, htr2, h1, h2, h3, h4⟩ :=
    retryLoop_all_fail fnAt o hf hsr o.maxRetries 1 (by omega)
  rw [neatCatchRetry] at htr
  rw [htr2] at htr
  injection htr with htr
  subst htr
  exact h2

theorem backoff_formula_amended_witness :
    ({ outcome := (.vNull, .errorObj "Error" "w8"), attemptsMade := 4,
       waits := [100, 200, 300] } : RetryTrace).waits
      = (List.range' 1 3).map
          (nextDelayFor { delay := 100, backoff := .linear }) :=
  (backoff_formula_amended (fun _ => .throws (.errorObj "Error" "w8"))
      { delay := 100, backoff := .linear }
      (fun n => ⟨.errorObj "Error" "w8", by simp [opFailsWith], rfl⟩)
      (fun _ _ => rfl)).1
    { outcome := (.vNull, .errorObj "Error" "w8"), attemptsMade := 4,
      waits := [100, 200, 300] }
    (by decide)
